import Mathlib

/-!
Verification development for the query-translation core of the Directus fork
(`src/api/src/utils/apply-query.ts`, `src/api/src/utils/get-default-value.ts`,
and the payload service).

The TypeScript source is shallowly embedded: JSON-shaped filter values become
the mutual inductive family `JSVal`/`JSArr`/`JSObj`; the mutated Knex query
builder becomes explicit lists of emitted `JoinSpec`/`LEFT JOIN`s and
`WhereOp` predicates; thrown `InvalidQueryException`s become `Except.error`;
the nanoid alias generator becomes a deterministic counter (its only relevant
property being that each call yields a fresh token); the lodash `set`/`get`
pair on the shared `aliasMap` object becomes a string trie.
-/

namespace Directus

-- JavaScript values as they occur in filter/query objects.  Mutual with
-- `JSArr`/`JSObj` (instead of nested `List`s) so that all recursion over filter
-- trees is structural and kernel-reducible.
mutual
inductive JSVal : Type where
  | undef : JSVal
  | null : JSVal
  | bool (b : Bool) : JSVal
  | num (n : Int) : JSVal
  | str (s : String) : JSVal
  | arr (xs : JSArr) : JSVal
  | obj (fs : JSObj) : JSVal

inductive JSArr : Type where
  | nil : JSArr
  | cons (hd : JSVal) (tl : JSArr) : JSArr

inductive JSObj : Type where
  | nil : JSObj
  | cons (k : String) (v : JSVal) (tl : JSObj) : JSObj
end

/-- Convenience constructor: a JS object literal from a key/value list. -/
def jobj : List (String × JSVal) → JSObj
  | [] => JSObj.nil
  | (k, v) :: tl => JSObj.cons k v (jobj tl)

/-- Convenience constructor: a JS array literal from a value list. -/
def jarr : List JSVal → JSArr
  | [] => JSArr.nil
  | v :: tl => JSArr.cons v (jarr tl)

/-- Elements of a JS array as a Lean list. -/
def JSArr.toList : JSArr → List JSVal
  | JSArr.nil => []
  | JSArr.cons v tl => v :: JSArr.toList tl

/-- Keys of a JS object in insertion order. -/
def JSObj.keys : JSObj → List String
  | JSObj.nil => []
  | JSObj.cons k _ tl => k :: JSObj.keys tl

/-- Length of a JS array. -/
def JSArr.length : JSArr → Nat
  | JSArr.nil => 0
  | JSArr.cons _ tl => JSArr.length tl + 1

/-- JavaScript `Object.keys`.  For objects: the field names; for arrays and
strings: the stringified indices.  (`Object.keys` of `null`/`undefined`
throws a TypeError in JS; the claims never reach that case, we return `[]`.) -/
def jsKeys : JSVal → List String
  | JSVal.obj fs => JSObj.keys fs
  | JSVal.arr xs => (List.range (JSArr.length xs)).map (fun i => Nat.repr i)
  | JSVal.str s => (List.range s.length).map (fun i => Nat.repr i)
  | _ => []

/-- lodash `isPlainObject`. -/
def isPlainObj : JSVal → Bool
  | JSVal.obj _ => true
  | _ => false

/-- JavaScript strict equality `===` restricted to the comparisons the source
performs (always against a primitive literal: `undefined`, `false`, string
literals).  Two objects/arrays are only `===` if they are the same reference,
which never holds for the source's comparisons, hence the `false` fallback. -/
def jsEq : JSVal → JSVal → Bool
  | JSVal.undef, JSVal.undef => true
  | JSVal.null, JSVal.null => true
  | JSVal.bool a, JSVal.bool b => a == b
  | JSVal.num a, JSVal.num b => a == b
  | JSVal.str a, JSVal.str b => a == b
  | _, _ => false

/-- JavaScript truthiness (`Boolean(v)`). -/
def jsTruthy : JSVal → Bool
  | JSVal.undef => false
  | JSVal.null => false
  | JSVal.bool b => b
  | JSVal.num n => n != 0
  | JSVal.str s => s != ""
  | JSVal.arr _ => true
  | JSVal.obj _ => true

/-- JavaScript string coercion as used in template literals.  Arrays and
objects are coarsely modelled (no claim exercises them in string position). -/
def jsToString : JSVal → String
  | JSVal.undef => "undefined"
  | JSVal.null => "null"
  | JSVal.bool b => if b then "true" else "false"
  | JSVal.num n => Int.repr n
  | JSVal.str s => s
  | JSVal.arr _ => ""
  | JSVal.obj _ => "[object Object]"

/-- Helper for `splitOnChar`: current chunk accumulated in reverse. -/
def splitOnCharAux (sep : Char) : List Char → List Char → List String
  | [], cur => [String.mk cur.reverse]
  | c :: rest, cur =>
    if c = sep then String.mk cur.reverse :: splitOnCharAux sep rest []
    else splitOnCharAux sep rest (c :: cur)

/-- JavaScript `s.split(sep)` for a single-character separator, implemented
structurally over the character list (the builtin `String.splitOn` is not
kernel-reducible). -/
def splitOnChar (sep : Char) (s : String) : List String :=
  splitOnCharAux sep s.data []

/-- JavaScript `s.startsWith(_)` (all `startsWith` calls in the source test
this one single-character prefix). -/
def startsWithUnderscore (s : String) : Bool :=
  match s.data with
  | [] => false
  | c :: _ => c = '_'

/-- `toArray` from `@directus/shared/utils`: strings split on commas, arrays
pass through, anything else is wrapped in a singleton. -/
def toArray (v : JSVal) : List JSVal :=
  match v with
  | JSVal.str s => (splitOnChar ',' s).map JSVal.str
  | JSVal.arr xs => JSArr.toList xs
  | x => [x]

/-- Object entries (`Object.entries`) of a filter value.  Non-objects yield
nothing (sub-filters in the source are always plain objects). -/
def jsEntries : JSVal → JSObj
  | JSVal.obj fs => fs
  | _ => JSObj.nil

/-- Relation metadata (`Relation.meta` in `src/api/src/types`), restricted to
the cardinality-distinguishing hints the compiler reads. -/
structure RelationMeta where
  one_field : Option String := none
  one_collection_field : Option String := none
  one_allowed_collections : Option (List String) := none

/-- Schema relation row. -/
structure Relation where
  collection : String
  field : String
  related_collection : Option String := none
  meta : Option RelationMeta := none

/-- TypeScript non-null assertion `x!` on an optional string: the source only
applies it where schema consistency guarantees presence. -/
def optStr : Option String → String
  | some s => s
  | none => ""

/-- SchemaOverview as read by the compiler: the relations list and, for
`schema.collections[c].primary`, the primary-key field of each collection. -/
structure SchemaOverview where
  relations : List Relation
  primary : String → String

/-- Relation cardinality classes. -/
inductive RelType : Type where
  | m2o : RelType
  | o2m : RelType
  | m2a : RelType
deriving DecidableEq

/-- Modelled from the spec: `get-relation-type.ts` is imported by
`apply-query.ts` but is not among the provided sources.  Spec section 4.1:
m2a if the matched relation has `one_allowed_collections`; m2o if
`relation.collection == contextCollection && relation.field == field`; o2m if
`relation.related_collection == contextCollection &&
relation.meta.one_field == field`. -/
def getRelationType (relation : Relation) (collection : String) (field : String) :
    Option RelType :=
  if (Option.bind relation.meta RelationMeta.one_allowed_collections).isSome then
    some RelType.m2a
  else if relation.collection = collection ∧ relation.field = field then
    some RelType.m2o
  else if relation.related_collection = some collection ∧
      Option.bind relation.meta RelationMeta.one_field = some field then
    some RelType.o2m
  else
    none

/-- Relation lookup used identically by `followRelation`, `addWhereClauses`
and `getWhereColumn`: forward match on `(collection, field)` or reverse match
on `(related_collection, meta.one_field)`. -/
def findRelation (relations : List Relation) (collection pathRoot : String) :
    Option Relation :=
  relations.find? fun relation =>
    (relation.collection = collection ∧ relation.field = pathRoot) ∨
      (relation.related_collection = some collection ∧
        Option.bind relation.meta RelationMeta.one_field = some pathRoot)

/-- `pathParts[0].split(:)[0]`: the field part of a possibly `:scope`-suffixed
path segment. -/
def pathRootOf (s : String) : String :=
  match splitOnChar ':' s with
  | [] => ""
  | root :: _ => root

/-- `pathParts[0].split(:)[1]`: the many-to-any collection scope of a path
segment, if present.  The source tests it with JS truthiness, so an empty
scope (`field:`) behaves like an absent one; we keep the raw result and test
emptiness at the use sites. -/
def pathScopeOf (s : String) : Option String :=
  match splitOnChar ':' s with
  | _ :: scope :: _ => some scope
  | _ => none

/-- The `aliasMap` object written by lodash `set` with string-list paths:
leaves are alias strings, inner nodes are nested objects. -/
inductive AliasTrie : Type where
  | leaf (v : String) : AliasTrie
  | node (children : List (String × AliasTrie)) : AliasTrie

/-- Child lookup by key. -/
def lookupChild : List (String × AliasTrie) → String → Option AliasTrie
  | [], _ => none
  | (k2, t) :: tl, k => if k2 = k then some t else lookupChild tl k

/-- In-place child replacement (append when absent), preserving insertion
order as JS objects do. -/
def replaceChild : List (String × AliasTrie) → String → AliasTrie →
    List (String × AliasTrie)
  | [], k, s => [(k, s)]
  | (k2, t) :: tl, k, s =>
    if k2 = k then (k2, s) :: tl else (k2, t) :: replaceChild tl k s

/-- lodash `set(obj, path, value)`: walks/creates the path, replacing any
non-object intermediate with a fresh object, and overwrites the final slot. -/
def trieSet : AliasTrie → List String → String → AliasTrie
  | _, [], v => AliasTrie.leaf v
  | t, k :: rest, v =>
    let children := match t with
      | AliasTrie.node ch => ch
      | AliasTrie.leaf _ => []
    let sub := match lookupChild children k with
      | some s => s
      | none => AliasTrie.node []
    AliasTrie.node (replaceChild children k (trieSet sub rest v))

/-- lodash `get(obj, path)` specialised to string results: the source only
ever uses the value as an alias string (`undefined` when absent; reading an
inner object would produce garbage downstream and is never exercised). -/
def trieGet : AliasTrie → List String → Option String
  | AliasTrie.leaf v, [] => some v
  | AliasTrie.node _, [] => none
  | AliasTrie.leaf _, _ :: _ => none
  | AliasTrie.node ch, k :: rest =>
    match lookupChild ch k with
    | some sub => trieGet sub rest
    | none => none

/-- `generateAlias` (nanoid `customAlphabet` of 5 lowercase letters) modelled
as a deterministic fresh-name supply: the `n`-th call of a compilation. -/
def generateAlias (n : Nat) : String :=
  "alias_" ++ Nat.repr n

/-- The only exception type `apply-query.ts` imports and throws
(`InvalidQueryException`). -/
inductive QueryError : Type where
  | invalidQuery (msg : String) : QueryError

/-- Message thrown for a scope-less many-to-any path segment. -/
def m2aScopeMsg : String :=
  "You have to provide a collection scope when filtering on a many-to-any item"

/-- Message thrown by `getWhereColumn` for an unresolvable leading segment. -/
def notRelationalMsg (collection pathRoot : String) : String :=
  "\"" ++ collection ++ "." ++ pathRoot ++ "\" is not a relational field"

/-- Logical combination mode of a Knex where call (`dbQuery[logical]`). -/
inductive Logical : Type where
  | and : Logical
  | or : Logical
deriving DecidableEq

/-- A LEFT JOIN emitted on the builder. -/
inductive JoinSpec : Type where
  /-- `leftJoin({[a]: tbl}, lhs, rhs)` — plain column-equality join. -/
  | onCols (a tbl lhs rhs : String) : JoinSpec
  /-- many-to-any join: `leftJoin({[a]: tbl}, clause)` with
  `clause.on(lhs, =, rhs).andOnVal(discCol, =, discVal)`. -/
  | m2aJoin (a tbl lhs rhs discCol discVal : String) : JoinSpec

/-- A predicate emitted on the builder by the where pass. -/
inductive WhereOp : Type where
  /-- `whereNull` (`isNot = false`) / `whereNotNull` (`isNot = true`). -/
  | nullCheck (l : Logical) (isNot : Bool) (key : String) : WhereOp
  /-- `where(key, op, v)` / `whereNot(key, op, v)`. -/
  | cmp (l : Logical) (isNot : Bool) (key op : String) (v : JSVal) : WhereOp
  /-- `where({[key]: v})` / `whereNot({[key]: v})`. -/
  | eqOp (l : Logical) (isNot : Bool) (key : String) (v : JSVal) : WhereOp
  /-- `where(key, like, pattern)` / negated. -/
  | like (l : Logical) (isNot : Bool) (key pattern : String) : WhereOp
  /-- `whereIn` / `whereNotIn`. -/
  | inList (l : Logical) (isNot : Bool) (key : String) (vs : List JSVal) : WhereOp
  /-- `whereBetween` / `whereNotBetween`. -/
  | between (l : Logical) (isNot : Bool) (key : String) (vs : List JSVal) : WhereOp
  /-- `whereRaw(geometryHelper.<fn>(key, v))`. -/
  | geo (l : Logical) (fn : String) (key : String) (v : JSVal) : WhereOp
  /-- grouped sub-predicate `dbQuery[l].where((subQuery) => ...)`. -/
  | group (l : Logical) (ops : List WhereOp) : WhereOp
  /-- correlated subquery `dbQuery[l].whereIn(pkField, (sub) =>
  sub.select({[selField]: selColumn}).from(fromTable)` plus the joins and
  where clauses the recursive `applyQuery` adds to `sub`. -/
  | inSub (l : Logical) (pkField selField selColumn fromTable : String)
      (joins : List JoinSpec) (wheres : List WhereOp) : WhereOp

/-- Mutable state threaded through the join-planning pass: the shared
`aliasMap`, the alias-generator counter and the joins emitted so far. -/
structure JoinState where
  aliasMap : AliasTrie
  counter : Nat
  joins : List JoinSpec

/-- Result of one `applyFilter` pass: final counter, emitted joins and
emitted where clauses. -/
structure FilterResult where
  counter : Nat
  joins : List JoinSpec
  wheres : List WhereOp

-- `getFilterPath(key, value)`: recover the dotted relational path by
-- descending into the first entry of each nested object until an
-- operator-prefixed key or a non-object value is reached.  On an empty object
-- the JS source would throw a TypeError (`Object.keys(undefined)`); that case
-- is unreachable for the claims and modelled as the one-segment path.
mutual
def getFilterPath (key : String) (value : JSVal) : List String :=
  match value with
  | JSVal.obj fs => getFilterPathObj key fs
  | _ => [key]

def getFilterPathObj (key : String) : JSObj → List String
  | JSObj.nil => [key]
  | JSObj.cons k v _ =>
    if startsWithUnderscore k then [key] else key :: getFilterPath k v
end

-- `getOperation(key, value)`: extract `{operator, value}` by descending
-- through nested single-key objects until a key starting with `_` (other than
-- `_and`/`_or`) or a non-object value (implicit `_eq`).  The empty-object
-- case again throws in JS and is modelled as implicit `_eq`.
mutual
def getOperation (key : String) (value : JSVal) : String × JSVal :=
  if startsWithUnderscore key ∧ key ≠ "_and" ∧ key ≠ "_or" then (key, value)
  else
    match value with
    | JSVal.obj fs => getOperationObj value fs
    | _ => ("_eq", value)

def getOperationObj (value : JSVal) : JSObj → String × JSVal
  | JSObj.nil => ("_eq", value)
  | JSObj.cons k v _ => getOperation k v
end

/-- Elementwise removal of `undefined` entries from an operand array
(`compareValue.filter((val) => val !== undefined)`). -/
def filterUndef : JSArr → JSArr
  | JSArr.nil => JSArr.nil
  | JSArr.cons v tl =>
    if jsEq v JSVal.undef then filterUndef tl
    else JSArr.cons v (filterUndef tl)

/-- `applyFilterToQuery(query, key, operator, compareValue, logical)`: the
operator table.  The four null/empty operators run without an operand (sense
inverted when the operand is literally `false`); every other operator is
skipped when the operand is `undefined`; array operands have `undefined`
entries removed before use; unknown operator tokens emit nothing. -/
def applyFilterToQuery (key operator : String) (compareValue : JSVal)
    (logical : Logical) : List WhereOp :=
  let noValOps : List WhereOp :=
    if operator = "_null" then
      [WhereOp.nullCheck logical (jsEq compareValue (JSVal.bool false)) key]
    else if operator = "_nnull" then
      [WhereOp.nullCheck logical (!jsEq compareValue (JSVal.bool false)) key]
    else if operator = "_empty" then
      [WhereOp.cmp logical (jsEq compareValue (JSVal.bool false)) key "=" (JSVal.str "")]
    else if operator = "_nempty" then
      [WhereOp.cmp logical (!jsEq compareValue (JSVal.bool false)) key "!=" (JSVal.str "")]
    else []
  if jsEq compareValue JSVal.undef then noValOps
  else
    let cv := match compareValue with
      | JSVal.arr xs => JSVal.arr (filterUndef xs)
      | v => v
    noValOps ++
      (if operator = "_eq" then [WhereOp.eqOp logical false key cv]
      else if operator = "_neq" then [WhereOp.eqOp logical true key cv]
      else if operator = "_contains" then
        [WhereOp.like logical false key ("%" ++ jsToString cv ++ "%")]
      else if operator = "_ncontains" then
        [WhereOp.like logical true key ("%" ++ jsToString cv ++ "%")]
      else if operator = "_starts_with" then
        [WhereOp.like logical false key (jsToString cv ++ "%")]
      else if operator = "_nstarts_with" then
        [WhereOp.like logical true key (jsToString cv ++ "%")]
      else if operator = "_ends_with" then
        [WhereOp.like logical false key ("%" ++ jsToString cv)]
      else if operator = "_nends_with" then
        [WhereOp.like logical true key ("%" ++ jsToString cv)]
      else if operator = "_gt" then [WhereOp.cmp logical false key ">" cv]
      else if operator = "_gte" then [WhereOp.cmp logical false key ">=" cv]
      else if operator = "_lt" then [WhereOp.cmp logical false key "<" cv]
      else if operator = "_lte" then [WhereOp.cmp logical false key "<=" cv]
      else if operator = "in" then [WhereOp.inList logical false key (toArray cv)]
      else if operator = "nin" then [WhereOp.inList logical true key (toArray cv)]
      else if operator = "_between" then [WhereOp.between logical false key (toArray cv)]
      else if operator = "_nbetween" then [WhereOp.between logical true key (toArray cv)]
      else if operator = "_intersects" then [WhereOp.geo logical "intersects" key cv]
      else if operator = "_nintersects" then [WhereOp.geo logical "nintersects" key cv]
      else if operator = "_intersects_bbox" then
        [WhereOp.geo logical "intersects_bbox" key cv]
      else if operator = "_nintersects_bbox" then
        [WhereOp.geo logical "nintersects_bbox" key cv]
      else [])

/-- `followRelation(pathParts, parentCollection, parentAlias)` inside
`addJoin`: resolve the relation for the leading segment, record a fresh alias
for the cumulative path in the shared `aliasMap`, emit the LEFT JOIN
according to the cardinality (o2m only inside a subquery pass or past the
first hop), and recurse into the remaining segments for m2o hops or when in
a subquery pass. -/
def followRelation (schema : SchemaOverview) (subQuery : Bool) :
    List String → String → Option String → JoinState → Except QueryError JoinState
  | [], _, _, st => Except.ok st
  | p0 :: rest, parentCollection, parentAlias, st =>
    let pathRoot := pathRootOf p0
    match findRelation schema.relations parentCollection pathRoot with
    | none => Except.ok st
    | some relation =>
      let relationType := getRelationType relation parentCollection pathRoot
      let a := generateAlias st.counter
      let parentRef := match parentAlias with
        | some pa => pa
        | none => parentCollection
      let st1 : JoinState :=
        { aliasMap :=
            trieSet st.aliasMap
              (match parentAlias with
                | some pa => pa :: p0 :: rest
                | none => p0 :: rest) a
          counter := st.counter + 1
          joins := st.joins }
      let st2 : JoinState :=
        if relationType = some RelType.m2o then
          { st1 with joins := st1.joins ++
              [JoinSpec.onCols a (optStr relation.related_collection)
                (parentRef ++ "." ++ relation.field)
                (a ++ "." ++ schema.primary (optStr relation.related_collection))] }
        else st1
      match
        (if relationType = some RelType.m2a then
          match pathScopeOf p0 with
          | none => Except.error (QueryError.invalidQuery m2aScopeMsg)
          | some scope =>
            if scope = "" then Except.error (QueryError.invalidQuery m2aScopeMsg)
            else
              Except.ok { st2 with joins := st2.joins ++
                [JoinSpec.m2aJoin a scope (parentRef ++ "." ++ relation.field)
                  (a ++ "." ++ schema.primary scope)
                  (optStr (Option.bind relation.meta RelationMeta.one_collection_field))
                  scope] }
        else Except.ok st2 : Except QueryError JoinState)
      with
      | Except.error e => Except.error e
      | Except.ok st3 =>
        let st4 : JoinState :=
          if relationType = some RelType.o2m ∧ (subQuery = true ∨ parentAlias ≠ none) then
            { st3 with joins := st3.joins ++
                [JoinSpec.onCols a relation.collection
                  (parentRef ++ "." ++ schema.primary (optStr relation.related_collection))
                  (a ++ "." ++ relation.field)] }
          else st3
        if relationType = some RelType.m2o ∨ subQuery = true then
          match
            (if relationType = some RelType.m2o then
              Except.ok (optStr relation.related_collection)
            else if relationType = some RelType.m2a then
              match pathScopeOf p0 with
              | none => Except.error (QueryError.invalidQuery m2aScopeMsg)
              | some scope =>
                if scope = "" then Except.error (QueryError.invalidQuery m2aScopeMsg)
                else Except.ok scope
            else Except.ok relation.collection : Except QueryError String)
          with
          | Except.error e => Except.error e
          | Except.ok parent =>
            match rest with
            | [] => Except.ok st4
            | _ :: _ => followRelation schema subQuery rest parent (some a) st4
        else Except.ok st4

-- The join-planning pass `addJoins(dbQuery, filter, collection)`: walk the
-- filter entries; an `_or` group containing an empty sub-filter is skipped
-- entirely (full-permission short-circuit); other logical groups recurse into
-- each sub-filter; a non-logical key with a multi-segment path plans a join
-- chain via `followRelation`.
mutual
def addJoins (schema : SchemaOverview) (subQuery : Bool) (collection : String) :
    JSObj → JoinState → Except QueryError JoinState
  | JSObj.nil, st => Except.ok st
  | JSObj.cons key value rest, st =>
    match addJoinsEntry schema subQuery collection key value st with
    | Except.error e => Except.error e
    | Except.ok st2 => addJoins schema subQuery collection rest st2

def addJoinsEntry (schema : SchemaOverview) (subQuery : Bool) (collection : String)
    (key : String) (value : JSVal) (st : JoinState) : Except QueryError JoinState :=
  if key = "_or" ∨ key = "_and" then
    match value with
    | JSVal.arr subs =>
      if key = "_or" ∧ (JSArr.toList subs).any (fun s => (jsKeys s).isEmpty) then
        Except.ok st
      else addJoinsSubs schema subQuery collection subs st
    | _ => Except.ok st
  else
    if (getFilterPath key value).length > 1 then
      followRelation schema subQuery (getFilterPath key value) collection none st
    else Except.ok st

def addJoinsSubs (schema : SchemaOverview) (subQuery : Bool) (collection : String) :
    JSArr → JoinState → Except QueryError JoinState
  | JSArr.nil, st => Except.ok st
  | JSArr.cons s rest, st =>
    match
      (match s with
        | JSVal.obj fs => addJoins schema subQuery collection fs st
        | _ => Except.ok st)
    with
    | Except.error e => Except.error e
    | Except.ok st2 => addJoinsSubs schema subQuery collection rest st2
end

/-- `getWhereColumn(path, collection, alias)`: resolve the column a
multi-segment filter path refers to, by walking the remaining segments
through the aliases recorded by the join pass.  Throws `InvalidQuery` when
the leading segment is not a relational field, or when a many-to-any segment
lacks its collection scope.  Returns `none` (JS `undefined`) when the path
runs out, in which case the caller skips the leaf. -/
def getWhereColumn (schema : SchemaOverview) (aliasMap : AliasTrie) :
    List String → String → Option String → Except QueryError (Option String)
  | [], _, _ => Except.ok none
  | p0 :: remainingParts, collection, aliasArg =>
    let pathRoot := pathRootOf p0
    match findRelation schema.relations collection pathRoot with
    | none =>
      Except.error (QueryError.invalidQuery (notRelationalMsg collection pathRoot))
    | some relation =>
      let relationType := getRelationType relation collection pathRoot
      let aliasHere := trieGet aliasMap
        (match aliasArg with
          | some al => al :: p0 :: remainingParts
          | none => p0 :: remainingParts)
      match
        (if relationType = some RelType.m2a then
          match pathScopeOf p0 with
          | none => Except.error (QueryError.invalidQuery m2aScopeMsg)
          | some scope =>
            if scope = "" then Except.error (QueryError.invalidQuery m2aScopeMsg)
            else Except.ok scope
        else if relationType = some RelType.m2o then
          Except.ok (optStr relation.related_collection)
        else Except.ok relation.collection : Except QueryError String)
      with
      | Except.error e => Except.error e
      | Except.ok parent =>
        match remainingParts with
        | [] => Except.ok none
        | [leafSeg] =>
          Except.ok (some
            ((match aliasHere with
              | some al => al
              | none => parent) ++ "." ++ leafSeg))
        | _ :: _ :: _ => getWhereColumn schema aliasMap remainingParts parent aliasHere

-- The predicate-compilation pass `addWhereClauses(dbQuery, filter,
-- collection, logical)`.  An `_or` group containing an empty sub-filter is
-- skipped; other logical groups open a grouped predicate combined with the
-- inherited `logical` and recurse with the group's own logical; a leaf
-- resolving to a plain/m2o/m2a column emits an operator-table predicate; a
-- root-level o2m leaf with `subQuery = false` compiles into a correlated
-- `whereIn` subquery (the source defers the subquery callback until Knex
-- runs the query; it is evaluated eagerly here, which only matters for the
-- time at which exceptions inside it would surface), and with
-- `subQuery = true` emits nothing.
mutual
def addWhereClauses (schema : SchemaOverview) (subQuery : Bool) (aliasMap : AliasTrie)
    (collection : String) (logical : Logical) :
    JSObj → Nat → Except QueryError (Nat × List WhereOp)
  | JSObj.nil, counter => Except.ok (counter, [])
  | JSObj.cons key value rest, counter =>
    match addWhereEntry schema subQuery aliasMap collection logical key value counter with
    | Except.error e => Except.error e
    | Except.ok (c1, ops1) =>
      match addWhereClauses schema subQuery aliasMap collection logical rest c1 with
      | Except.error e => Except.error e
      | Except.ok (c2, ops2) => Except.ok (c2, ops1 ++ ops2)

def addWhereEntry (schema : SchemaOverview) (subQuery : Bool) (aliasMap : AliasTrie)
    (collection : String) (logical : Logical) (key : String) (value : JSVal)
    (counter : Nat) : Except QueryError (Nat × List WhereOp) :=
  if key = "_or" ∨ key = "_and" then
    match value with
    | JSVal.arr subs =>
      if key = "_or" ∧ (JSArr.toList subs).any (fun s => (jsKeys s).isEmpty) then
        Except.ok (counter, [])
      else
        match addWhereSubs schema subQuery aliasMap collection
            (if key = "_and" then Logical.and else Logical.or) subs counter with
        | Except.error e => Except.error e
        | Except.ok (c, inner) => Except.ok (c, [WhereOp.group logical inner])
    | _ => Except.ok (counter, [])
  else
    let filterPath := getFilterPath key value
    let pathRoot := pathRootOf (filterPath.headD "")
    let relation := findRelation schema.relations collection pathRoot
    let op := getOperation key value
    let relationType : Option RelType :=
      match relation with
      | some r => getRelationType r collection pathRoot
      | none => none
    match relationType, relation with
    | some RelType.o2m, some r =>
      if subQuery = false then
        -- `dbQuery[logical].whereIn(pkField, (sub) => {
        --    sub.select({[field]: column}).from(collection);
        --    applyQuery(relation.collection, sub, {filter: value}, schema, true); })`
        -- `applyQuery` with only `filter` set reduces to `applyFilter` of
        -- `value` against the related collection with `subQuery = true`
        -- (fresh aliasMap), inlined here; see `applyQuery_filter_only`.
        let pkField := collection ++ "." ++ schema.primary (optStr r.related_collection)
        match value with
        | JSVal.obj fs =>
          match addJoins schema true r.collection fs
              { aliasMap := AliasTrie.node [], counter := counter, joins := [] } with
          | Except.error e => Except.error e
          | Except.ok stJ =>
            match addWhereClauses schema true stJ.aliasMap r.collection Logical.and
                fs stJ.counter with
            | Except.error e => Except.error e
            | Except.ok (c2, ws) =>
              Except.ok (c2,
                [WhereOp.inSub logical pkField r.field (r.collection ++ "." ++ r.field)
                  r.collection stJ.joins ws])
        | _ =>
          Except.ok (counter,
            [WhereOp.inSub logical pkField r.field (r.collection ++ "." ++ r.field)
              r.collection [] []])
      else Except.ok (counter, [])
    | _, _ =>
      if filterPath.length > 1 then
        match getWhereColumn schema aliasMap filterPath collection none with
        | Except.error e => Except.error e
        | Except.ok none => Except.ok (counter, [])
        | Except.ok (some columnName) =>
          Except.ok (counter, applyFilterToQuery columnName op.1 op.2 logical)
      else
        Except.ok (counter,
          applyFilterToQuery (collection ++ "." ++ filterPath.headD "") op.1 op.2 logical)

def addWhereSubs (schema : SchemaOverview) (subQuery : Bool) (aliasMap : AliasTrie)
    (collection : String) (logical : Logical) :
    JSArr → Nat → Except QueryError (Nat × List WhereOp)
  | JSArr.nil, counter => Except.ok (counter, [])
  | JSArr.cons s rest, counter =>
    match
      (match s with
        | JSVal.obj fs =>
          addWhereClauses schema subQuery aliasMap collection logical fs counter
        | _ => Except.ok (counter, []))
    with
    | Except.error e => Except.error e
    | Except.ok (c1, ops1) =>
      match addWhereSubs schema subQuery aliasMap collection logical rest c1 with
      | Except.error e => Except.error e
      | Except.ok (c2, ops2) => Except.ok (c2, ops1 ++ ops2)
end

/-- `applyFilter(schema, rootQuery, rootFilter, collection, subQuery)`: a
fresh `aliasMap`, then the join pass followed by the where pass over the same
filter with the shared map. -/
def applyFilter (schema : SchemaOverview) (rootFilter : JSVal) (collection : String)
    (subQuery : Bool) (counter : Nat) : Except QueryError FilterResult :=
  match addJoins schema subQuery collection (jsEntries rootFilter)
      { aliasMap := AliasTrie.node [], counter := counter, joins := [] } with
  | Except.error e => Except.error e
  | Except.ok st =>
    match addWhereClauses schema subQuery st.aliasMap collection Logical.and
        (jsEntries rootFilter) st.counter with
    | Except.error e => Except.error e
    | Except.ok (c, ws) => Except.ok { counter := c, joins := st.joins, wheres := ws }

/-- The `Query` object fields `applyQuery` reads (`search` is consumed by
`applySearch`, which no claim concerns and which is not modelled). -/
structure Query where
  sort : Option (List String) := none
  limit : Option Int := none
  offset : Option Int := none
  page : Option Int := none
  filter : Option JSVal := none

/-- Knex query-builder state populated by `applyQuery`: later `limit`/`offset`
calls overwrite earlier ones. -/
structure QB where
  orderBy : List String := []
  limit : Option Int := none
  offset : Option Int := none
  joins : List JoinSpec := []
  wheres : List WhereOp := []

/-- `applyQuery(collection, dbQuery, query, schema, subQuery)`: sort, then
`limit` when it is a number, then `offset` when truthy, then
`offset = limit * (page - 1)` when both `page` and `limit` are truthy
(overriding the explicit offset), then the filter. -/
def applyQuery (collection : String) (dbQuery : QB) (query : Query)
    (schema : SchemaOverview) (subQuery : Bool) (counter : Nat) :
    Except QueryError (Nat × QB) :=
  let qb := match query.sort with
    | some cols => { dbQuery with orderBy := cols.map (fun c => collection ++ "." ++ c) }
    | none => dbQuery
  let qb := match query.limit with
    | some l => { qb with limit := some l }
    | none => qb
  let qb := match query.offset with
    | some o => if o ≠ 0 then { qb with offset := some o } else qb
    | none => qb
  let qb := match query.page, query.limit with
    | some p, some l =>
      if p ≠ 0 ∧ l ≠ 0 then { qb with offset := some (l * (p - 1)) } else qb
    | _, _ => qb
  match query.filter with
  | some f =>
    match applyFilter schema f collection subQuery counter with
    | Except.error e => Except.error e
    | Except.ok res =>
      Except.ok (res.counter,
        { qb with joins := qb.joins ++ res.joins, wheres := qb.wheres ++ res.wheres })
  | none => Except.ok (counter, qb)

/-- Sanity lemma tying the inlined o2m subquery compile back to the source
shape: `applyQuery` invoked with only a `filter` (as the subquery callback
does) is exactly `applyFilter` of that filter. -/
theorem applyQuery_filter_only (schema : SchemaOverview) (f : JSVal)
    (collection : String) (c : Nat) :
    applyQuery collection {} { filter := some f } schema true c =
      (match applyFilter schema f collection true c with
        | Except.error e => Except.error e
        | Except.ok res =>
          Except.ok (res.counter, { joins := res.joins, wheres := res.wheres })) := by
  cases h : applyFilter schema f collection true c <;>
    simp [applyQuery, h]

/-- Integer-string parsing used to model JavaScript `Number(string)`
(simplified to optionally-signed decimal integers; fractional and exotic
numeric strings are treated as non-numeric, which no claim exercises). -/
def parseDigitsAux : List Char → Nat → Option Nat
  | [], acc => some acc
  | c :: rest, acc =>
    if c.isDigit then parseDigitsAux rest (acc * 10 + (c.toNat - 48)) else none

/-- JavaScript `Number(s)` for strings (simplified, see `parseDigitsAux`);
the empty string coerces to `0`. -/
def jsStringToInt (s : String) : Option Int :=
  match s.data with
  | [] => some 0
  | '-' :: rest =>
    match rest with
    | [] => none
    | _ => (parseDigitsAux rest 0).map (fun n => -(n : Int))
  | l => (parseDigitsAux l 0).map (fun n => (n : Int))

/-- JavaScript `Number(v)`: `none` models NaN. -/
def jsNumber : JSVal → Option Int
  | JSVal.num n => some n
  | JSVal.str s => jsStringToInt s
  | JSVal.bool b => some (if b then 1 else 0)
  | JSVal.null => some 0
  | JSVal.undef => none
  | JSVal.arr _ => none
  | JSVal.obj _ => none

/-- `castToBoolean` from `get-default-value.ts`: a string casts to `false`
exactly when it is `false` or `1`; any other value uses `Boolean(value)`. -/
def castToBoolean (value : JSVal) : Bool :=
  match value with
  | JSVal.str s => s != "false" && s != "1"
  | v => jsTruthy v

/-- SQLite wraps string defaults in an extra pair of quotes; the source strips
one matching leading/trailing pair of single or double quotes. -/
def stripQuotes (dv : JSVal) : JSVal :=
  match dv with
  | JSVal.str s =>
    match s.data with
    | [] => JSVal.str s
    | c :: rest =>
      let lastc := (c :: rest).getLast (by simp)
      if (c = '\x27' ∧ lastc = '\x27') ∨ (c = '"' ∧ lastc = '"') then
        JSVal.str (String.mk ((c :: rest).drop 1).dropLast)
      else JSVal.str s
  | v => v

/-- `getDefaultValue` from `get-default-value.ts`.  `getLocalType` is not
among the provided sources, so the resolved local type is taken as a
parameter; `null`, the literal strings `null`/`NULL` (and an absent value,
via `?? null`) yield `null` before any coercion; numeric types coerce through
`Number` when that does not yield NaN; boolean types coerce through
`castToBoolean`. -/
def getDefaultValue (localType : String) (default_value : JSVal) : JSVal :=
  let dv := if jsEq default_value JSVal.undef then JSVal.null else default_value
  if jsEq dv JSVal.null then JSVal.null
  else if jsEq dv (JSVal.str "null") then JSVal.null
  else if jsEq dv (JSVal.str "NULL") then JSVal.null
  else
    let dv := stripQuotes dv
    if localType = "bigInteger" ∨ localType = "integer" ∨ localType = "decimal" ∨
        localType = "float" then
      match jsNumber dv with
      | some n => JSVal.num n
      | none => dv
    else if localType = "boolean" then JSVal.bool (castToBoolean dv)
    else dv

/-- Exceptions thrown by the payload service (`ForbiddenException`,
`InvalidPayloadException`). -/
inductive PayloadError : Type where
  | forbidden : PayloadError
  | invalidPayload (msg : String) : PayloadError

/-- JavaScript property read on a row object (`undefined` when absent). -/
def rowGet : List (String × JSVal) → String → JSVal
  | [], _ => JSVal.undef
  | (k, v) :: tl, f => if k = f then v else rowGet tl f

/-- lodash `isNil`. -/
def isNil : JSVal → Bool
  | JSVal.null => true
  | JSVal.undef => true
  | _ => false

/-- JavaScript loose equality `==` for the primitive shapes the payload
service compares (primary keys arriving as strings or numbers): mutual
null/undefined equality, same-type primitive comparison, number/string and
boolean coercion through `Number`.  Object/array reference comparisons are
never exercised and yield `false`. -/
def jsLooseEq (a b : JSVal) : Bool :=
  match a, b with
  | JSVal.null, JSVal.null => true
  | JSVal.null, JSVal.undef => true
  | JSVal.undef, JSVal.null => true
  | JSVal.undef, JSVal.undef => true
  | JSVal.bool x, JSVal.bool y => x == y
  | JSVal.bool x, y => jsNumber (JSVal.bool x) == jsNumber y && !isNil y
  | x, JSVal.bool y => jsNumber x == jsNumber (JSVal.bool y) && !isNil x
  | JSVal.num x, JSVal.num y => x == y
  | JSVal.str x, JSVal.str y => x == y
  | JSVal.num x, JSVal.str y => jsStringToInt y == some x
  | JSVal.str x, JSVal.num y => jsStringToInt x == some y
  | _, _ => false

/-- Outcome of handling one entry of a one-to-many nested-write array in
`processO2M`. -/
inductive O2MOutcome : Type where
  /-- the entry was already linked to the parent: its primary key is pushed
  onto `savedPrimaryKeys` and no update is triggered. -/
  | saved (pk : JSVal) : O2MOutcome
  /-- the entry is queued for `upsertMany` with the parent foreign key set. -/
  | upsert (record : List (String × JSVal)) : O2MOutcome

/-- Field list of a JS object as a row. -/
def jsObjToRow : JSObj → List (String × JSVal)
  | JSObj.nil => []
  | JSObj.cons k v tl => (k, v) :: jsObjToRow tl

/-- Spread-with-override `{...record, [field]: v}`: an existing key is
overwritten in place, a new one is appended. -/
def rowSet (r : List (String × JSVal)) (f : String) (v : JSVal) :
    List (String × JSVal) :=
  if (r.map Prod.fst).contains f then
    r.map (fun kv => if kv.1 = f then (kv.1, v) else kv)
  else r ++ [(f, v)]

/-- JavaScript `typeof x` being `string` or `number` (a bare primary key in a
nested-write payload). -/
def isBarePk : JSVal → Bool
  | JSVal.str _ => true
  | JSVal.num _ => true
  | _ => false

/-- One iteration of the nested-array loop of `processO2M` (payload service):
a bare string/number entry is looked up by primary key in the related
collection — `ForbiddenException` when no such record exists; when the found
record is already linked to the parent (loose `==` against `parent` or the
payload primary key) it is only marked saved; otherwise the entry (reduced to
its primary key, or spread when it is an object) is queued for upsert with
the relation field set to `parent || payload[currentPrimaryKeyField]`.  The
database is a map from collection name to its rows. -/
def processO2MItem (db : String → List (List (String × JSVal)))
    (relation : Relation) (relatedPrimaryKeyField : String) (parent : JSVal)
    (payloadCurrentPk : JSVal) (relatedRecord : JSVal) :
    Except PayloadError O2MOutcome :=
  let assignedParent := if jsTruthy parent then parent else payloadCurrentPk
  if isBarePk relatedRecord then
    match (db relation.collection).find?
        (fun r => jsLooseEq (rowGet r relatedPrimaryKeyField) relatedRecord) with
    | none => Except.error PayloadError.forbidden
    | some existingRecord =>
      let linked := rowGet existingRecord relation.field
      if !isNil linked ∧
          (jsLooseEq linked parent = true ∨ jsLooseEq linked payloadCurrentPk = true) then
        Except.ok (O2MOutcome.saved (rowGet existingRecord relatedPrimaryKeyField))
      else
        Except.ok (O2MOutcome.upsert
          (rowSet [(relatedPrimaryKeyField, relatedRecord)] relation.field assignedParent))
  else
    match relatedRecord with
    | JSVal.obj fs =>
      Except.ok (O2MOutcome.upsert (rowSet (jsObjToRow fs) relation.field assignedParent))
    | _ =>
      Except.ok (O2MOutcome.upsert (rowSet [] relation.field assignedParent))

/-! Concrete schema fixtures used to instantiate the claims. -/

/-- Fixture: `items.author` is a many-to-one relation to `authors`. -/
def relAuthor : Relation :=
  { collection := "items", field := "author",
    related_collection := some "authors", meta := none }

/-- Fixture schema with the single m2o relation `items.author → authors`;
every collection has primary key `id`. -/
def schemaAuthors : SchemaOverview :=
  { relations := [relAuthor], primary := fun _ => "id" }

/-- Fixture: `articles.page_id → pages`, with reverse field `pages.articles`
(a one-to-many relation from the perspective of `pages`). -/
def relArticles : Relation :=
  { collection := "articles", field := "page_id",
    related_collection := some "pages",
    meta := some { one_field := some "articles" } }

/-- Fixture schema with the single o2m relation `pages.articles`. -/
def schemaPages : SchemaOverview :=
  { relations := [relArticles], primary := fun _ => "id" }

/-- Fixture: `items.related_item` is a many-to-any relation (polymorphic,
with discriminator column `collection`). -/
def relM2A : Relation :=
  { collection := "items", field := "related_item",
    related_collection := none,
    meta := some { one_collection_field := some "collection",
                   one_allowed_collections := some ["articles", "posts"] } }

/-- Fixture schema with the single m2a relation `items.related_item`. -/
def schemaM2A : SchemaOverview :=
  { relations := [relM2A], primary := fun _ => "id" }

/-- Filter leaf `{field: {op: v}}`. -/
def leafFilter (field op : String) (v : JSVal) : JSVal :=
  JSVal.obj (jobj [(field, JSVal.obj (jobj [(op, v)]))])

/-- Nested relational filter `{rel: {field: {op: v}}}`. -/
def nestedFilter (rel field op : String) (v : JSVal) : JSVal :=
  JSVal.obj (jobj [(rel, JSVal.obj (jobj [(field, JSVal.obj (jobj [(op, v)]))]))])

/-- Joins of an `applyFilter` result (empty on error). -/
def resultJoins : Except QueryError FilterResult → List JoinSpec
  | Except.ok r => r.joins
  | Except.error _ => []

/-- Whether an `applyFilter` result is an exception. -/
def isError : Except QueryError FilterResult → Bool
  | Except.error _ => true
  | Except.ok _ => false

/-- `getFilterPath` always yields the given key as its first segment. -/
theorem getFilterPath_cons (key : String) (value : JSVal) :
    ∃ t, getFilterPath key value = key :: t := by
  cases value with
  | obj fs =>
    cases fs with
    | nil => exact ⟨[], rfl⟩
    | cons k v tl =>
      by_cases h : startsWithUnderscore k = true
      · exact ⟨[], by simp [getFilterPath, getFilterPathObj, h]⟩
      · exact ⟨getFilterPath k v, by simp [getFilterPath, getFilterPathObj, h]⟩
  | undef => exact ⟨[], rfl⟩
  | null => exact ⟨[], rfl⟩
  | bool b => exact ⟨[], rfl⟩
  | num n => exact ⟨[], rfl⟩
  | str s => exact ⟨[], rfl⟩
  | arr xs => exact ⟨[], rfl⟩

/-- Filter with two predicate leaves traversing the same dotted path
`author.name`: `{_and: [{author: {name: {_eq: v}}}, {author: {name: {_neq: w}}}]}`. -/
def filterSamePath (v w : JSVal) : JSVal :=
  JSVal.obj (jobj [("_and", JSVal.arr (jarr
    [JSVal.obj (jobj [("author",
        JSVal.obj (jobj [("name", JSVal.obj (jobj [("_eq", v)]))]))]),
     JSVal.obj (jobj [("author",
        JSVal.obj (jobj [("name", JSVal.obj (jobj [("_neq", w)]))]))])]))])

/-- C1 (counterexample): compiling a filter whose two predicate leaves both
traverse the dotted path `author.name` emits TWO left joins to `authors`, not
the exactly-one join the claim asserts; a second join for the already
recorded path IS emitted. -/
theorem claim_C1_counterexample :
    resultJoins (applyFilter schemaAuthors
        (filterSamePath (JSVal.num 1) (JSVal.num 2)) "items" false 0)
      = [JoinSpec.onCols "alias_0" "authors" "items.author" "alias_0.id",
         JoinSpec.onCols "alias_1" "authors" "items.author" "alias_1.id"]
    ∧ (resultJoins (applyFilter schemaAuthors
        (filterSamePath (JSVal.num 1) (JSVal.num 2)) "items" false 0)).length ≠ 1 :=
  ⟨rfl, by decide⟩

/-- C1 (amended): within one `applyFilter` pass each predicate leaf whose
path traverses a relation triggers its own `followRelation` run: a fresh
alias is generated per leaf and a second LEFT JOIN is emitted even for an
already-recorded path (joins are duplicated, not reused); the `aliasMap`
entry for the shared path is overwritten, so both leaves resolve their
column through the alias of the LAST join recorded for that path. -/
theorem claim_C1_amended (c : Nat) (v w : Int) :
    applyFilter schemaAuthors (filterSamePath (JSVal.num v) (JSVal.num w))
      "items" false c
    = Except.ok
      { counter := c + 2,
        joins := [JoinSpec.onCols (generateAlias c) "authors" "items.author"
            (generateAlias c ++ "." ++ "id"),
          JoinSpec.onCols (generateAlias (c + 1)) "authors" "items.author"
            (generateAlias (c + 1) ++ "." ++ "id")],
        wheres := [WhereOp.group Logical.and
          [WhereOp.eqOp Logical.and false (generateAlias (c + 1) ++ "." ++ "name")
            (JSVal.num v),
           WhereOp.eqOp Logical.and true (generateAlias (c + 1) ++ "." ++ "name")
            (JSVal.num w)]] } := rfl

/-- C3 (evaluation at the failing input): on the plain field `items.title`,
the filter `{title: {in: [1, undefined, 2]}}` does not compile to a
membership predicate — `getFilterPath` treats the non-underscore key `in` as
a path segment, so the compiler throws `InvalidQuery` (`items.title is not a
relational field`); the underscore spelling `{title: {_in: [1, 2]}}` is
extracted as operator `_in`, which matches no case of the operator switch, so
NO predicate at all is emitted; the switch case that would implement
membership (token `in`, unreachable from `applyFilter`) does filter
`undefined` out of the operand and emits `IN (1, 2)`. -/
theorem claim_C3_eval :
    applyFilter schemaAuthors
      (leafFilter "title" "in" (JSVal.arr (jarr [JSVal.num 1, JSVal.undef, JSVal.num 2])))
      "items" false 0
      = Except.error (QueryError.invalidQuery (notRelationalMsg "items" "title"))
    ∧ applyFilter schemaAuthors
      (leafFilter "title" "_in" (JSVal.arr (jarr [JSVal.num 1, JSVal.num 2])))
      "items" false 0
      = Except.ok { counter := 0, joins := [], wheres := [] }
    ∧ applyFilterToQuery "items.title" "in"
      (JSVal.arr (jarr [JSVal.num 1, JSVal.undef, JSVal.num 2])) Logical.and
      = [WhereOp.inList Logical.and false "items.title" [JSVal.num 1, JSVal.num 2]] :=
  ⟨rfl, rfl, rfl⟩

/-- C4: an `_or` group one of whose children is an empty (match-all)
sub-filter is skipped whole by BOTH passes — the join pass leaves the state
untouched and the where pass emits no clause (the group is equivalent to a
`true` predicate) — and, end to end, no join is emitted for a sibling
branch's relational field. -/
theorem claim_C4 :
    (∀ (schema : SchemaOverview) (subQuery : Bool) (collection : String)
        (st : JoinState) (subs : JSArr),
      (∃ s, s ∈ JSArr.toList subs ∧ jsKeys s = []) →
      addJoinsEntry schema subQuery collection "_or" (JSVal.arr subs) st
        = Except.ok st)
    ∧ (∀ (schema : SchemaOverview) (subQuery : Bool) (aliasMap : AliasTrie)
        (collection : String) (logical : Logical) (counter : Nat) (subs : JSArr),
      (∃ s, s ∈ JSArr.toList subs ∧ jsKeys s = []) →
      addWhereEntry schema subQuery aliasMap collection logical "_or"
        (JSVal.arr subs) counter = Except.ok (counter, []))
    ∧ applyFilter schemaAuthors
        (JSVal.obj (jobj [("_or", JSVal.arr (jarr
          [JSVal.obj (jobj [("author",
              JSVal.obj (jobj [("name", JSVal.obj (jobj [("_eq", JSVal.num 1)]))]))]),
           JSVal.obj JSObj.nil]))]))
        "items" false 0
      = Except.ok { counter := 0, joins := [], wheres := [] } := by
  refine ⟨?_, ?_, rfl⟩
  · intro schema subQuery collection st subs h
    have hany : (JSArr.toList subs).any (fun s => (jsKeys s).isEmpty) = true := by
      obtain ⟨s, hm, he⟩ := h
      exact List.any_eq_true.mpr ⟨s, hm, by simp [he]⟩
    simp [addJoinsEntry, hany]
  · intro schema subQuery aliasMap collection logical counter subs h
    have hany : (JSArr.toList subs).any (fun s => (jsKeys s).isEmpty) = true := by
      obtain ⟨s, hm, he⟩ := h
      exact List.any_eq_true.mpr ⟨s, hm, by simp [he]⟩
    simp [addWhereEntry, hany]

/-- C4 witness: the short-circuit applied to the concrete group
`{_or: [{a: 1}, {}]}`. -/
theorem claim_C4_witness :
    addJoinsEntry schemaAuthors false "items" "_or"
      (JSVal.arr (jarr [JSVal.obj (jobj [("a", JSVal.num 1)]), JSVal.obj JSObj.nil]))
      { aliasMap := AliasTrie.node [], counter := 0, joins := [] }
      = Except.ok { aliasMap := AliasTrie.node [], counter := 0, joins := [] }
    ∧ addWhereEntry schemaAuthors false (AliasTrie.node []) "items" Logical.and
      "_or" (JSVal.arr (jarr [JSVal.obj (jobj [("a", JSVal.num 1)]), JSVal.obj JSObj.nil])) 0
      = Except.ok (0, []) :=
  ⟨claim_C4.1 schemaAuthors false "items" _ _
      ⟨JSVal.obj JSObj.nil, by simp [jarr, JSArr.toList], rfl⟩,
   claim_C4.2.1 schemaAuthors false (AliasTrie.node []) "items" Logical.and 0 _
      ⟨JSVal.obj JSObj.nil, by simp [jarr, JSArr.toList], rfl⟩⟩

/-- C5 (counterexample): a SINGLE-segment filter path whose (only) segment
resolves to the scope-less many-to-any relation `items.related_item` does NOT
raise `InvalidQuery`: `{related_item: {_eq: 5}}` compiles without error to
the direct predicate `items.related_item = 5` (the scope check only runs when
the path traverses into the related item, i.e. has at least two segments). -/
theorem claim_C5_counterexample :
    applyFilter schemaM2A (leafFilter "related_item" "_eq" (JSVal.num 5))
      "items" false 0
      = Except.ok
        { counter := 0, joins := [],
          wheres := [WhereOp.eqOp Logical.and false "items.related_item" (JSVal.num 5)] }
    ∧ isError (applyFilter schemaM2A (leafFilter "related_item" "_eq" (JSVal.num 5))
        "items" false 0) = false :=
  ⟨rfl, rfl⟩

/-- Helper: an exception raised by the join pass aborts `applyFilter` with
that exception. -/
theorem applyFilter_join_error (schema : SchemaOverview) (f : JSVal)
    (collection : String) (subQuery : Bool) (c : Nat) (e : QueryError)
    (h : addJoins schema subQuery collection (jsEntries f)
      { aliasMap := AliasTrie.node [], counter := c, joins := [] } = Except.error e) :
    applyFilter schema f collection subQuery c = Except.error e := by
  unfold applyFilter
  rw [h]

/-- Helper: on the m2a fixture, `followRelation` on any path headed by the
scope-less segment `related_item` throws the collection-scope error, whatever
the remaining segments, parent alias and state are. -/
theorem followRelation_m2a_noscope (rest : List String) (parentAlias : Option String)
    (st : JoinState) :
    followRelation schemaM2A false ("related_item" :: rest) "items" parentAlias st
      = Except.error (QueryError.invalidQuery m2aScopeMsg) := rfl

/-- C5 (amended): every filter path of length AT LEAST TWO whose first
segment resolves to a many-to-any relation but carries no `:scope` suffix
makes `applyFilter` raise `InvalidQuery` (collection scope required) during
join planning, before any join or predicate is compiled for that path; a
single-segment path on the m2a field instead compiles a plain predicate on
the foreign-key column (see the counterexample). -/
theorem claim_C5_amended (v : JSVal) (fname : String) (c : Nat)
    (h : startsWithUnderscore fname = false) :
    applyFilter schemaM2A
      (JSVal.obj (jobj [("related_item", JSVal.obj (jobj [(fname, v)]))]))
      "items" false c
      = Except.error (QueryError.invalidQuery m2aScopeMsg) := by
  obtain ⟨t, ht⟩ := getFilterPath_cons fname v
  have hpath : getFilterPath "related_item" (JSVal.obj (jobj [(fname, v)]))
      = "related_item" :: fname :: t := by
    simp [getFilterPath, getFilterPathObj, jobj, h, ht]
  have hentry : addJoinsEntry schemaM2A false "items" "related_item"
      (JSVal.obj (jobj [(fname, v)]))
      { aliasMap := AliasTrie.node [], counter := c, joins := [] }
      = Except.error (QueryError.invalidQuery m2aScopeMsg) := by
    unfold addJoinsEntry
    rw [if_neg (by simp)]
    rw [hpath]
    rw [if_pos (by simp)]
    exact followRelation_m2a_noscope (fname :: t) none _
  apply applyFilter_join_error
  simp only [jobj] at hentry
  simp [jsEntries, jobj, addJoins, hentry]

/-- C5 witness: the amended theorem applied at the spec's own example,
`{related_item: {title: {_eq: x}}}`. -/
theorem claim_C5_witness :
    startsWithUnderscore "title" = false
    ∧ applyFilter schemaM2A
        (JSVal.obj (jobj [("related_item", JSVal.obj (jobj [("title", JSVal.str "x")]))]))
        "items" false 0
      = Except.error (QueryError.invalidQuery m2aScopeMsg) :=
  ⟨rfl, claim_C5_amended (JSVal.str "x") "title" 0 rfl⟩

/-- C2: for a filter entry whose key resolves to a one-to-many relation on
the current collection: (1) with `subQuery = false` the join pass emits NO
join for that first hop (only the alias bookkeeping and counter advance);
(2) with `subQuery = false` the where pass compiles the entry into
`collection.primaryKey IN (subquery)`, the subquery selecting the
foreign-key column from the related collection and carrying exactly the
joins/wheres of the nested filter compiled with `subQuery = true`;
(3)–(4) end to end on the o2m fixture: at the root with `subQuery = false`
the result has no join and one correlated-subquery predicate, and with
`subQuery = true` the same filter instead emits a direct LEFT JOIN and no
subquery. -/
theorem claim_C2 :
    (∀ (schema : SchemaOverview) (st : JoinState) (collection key : String)
        (value : JSVal) (r : Relation),
      key ≠ "_or" → key ≠ "_and" →
      findRelation schema.relations collection (pathRootOf key) = some r →
      getRelationType r collection (pathRootOf key) = some RelType.o2m →
      ∃ m c2, addJoinsEntry schema false collection key value st
        = Except.ok { aliasMap := m, counter := c2, joins := st.joins })
    ∧ (∀ (schema : SchemaOverview) (aliasMap : AliasTrie) (collection : String)
        (logical : Logical) (counter : Nat) (key : String) (value : JSVal)
        (r : Relation),
      key ≠ "_or" → key ≠ "_and" →
      findRelation schema.relations collection (pathRootOf key) = some r →
      getRelationType r collection (pathRootOf key) = some RelType.o2m →
      addWhereEntry schema false aliasMap collection logical key value counter
        = Except.map (fun res => (res.counter,
            [WhereOp.inSub logical
              (collection ++ "." ++ schema.primary (optStr r.related_collection))
              r.field (r.collection ++ "." ++ r.field) r.collection
              res.joins res.wheres]))
          (applyFilter schema value r.collection true counter))
    ∧ (∀ (c : Nat) (v : Int),
      applyFilter schemaPages (nestedFilter "articles" "title" "_eq" (JSVal.num v))
        "pages" false c
      = Except.ok
        { counter := c + 1, joins := [],
          wheres := [WhereOp.inSub Logical.and "pages.id" "page_id"
            "articles.page_id" "articles" []
            [WhereOp.eqOp Logical.and false "articles.title" (JSVal.num v)]] })
    ∧ (∀ (c : Nat) (v : Int),
      applyFilter schemaPages (nestedFilter "articles" "title" "_eq" (JSVal.num v))
        "pages" true c
      = Except.ok
        { counter := c + 1,
          joins := [JoinSpec.onCols (generateAlias c) "articles" "pages.id"
            (generateAlias c ++ "." ++ "page_id")],
          wheres := [] }) := by
  refine ⟨?_, ?_, fun c v => rfl, fun c v => rfl⟩
  · intro schema st collection key value r hk1 hk2 hfind htype
    obtain ⟨t, ht⟩ := getFilterPath_cons key value
    unfold addJoinsEntry
    rw [if_neg (by simp [hk1, hk2])]
    rw [ht]
    cases t with
    | nil =>
      rw [if_neg (by simp)]
      exact ⟨st.aliasMap, st.counter, by cases st; rfl⟩
    | cons t0 ts =>
      rw [if_pos (by simp)]
      refine ⟨trieSet st.aliasMap (key :: t0 :: ts) (generateAlias st.counter),
        st.counter + 1, ?_⟩
      unfold followRelation
      simp [hfind, htype]
  · intro schema aliasMap collection logical counter key value r hk1 hk2 hfind htype
    obtain ⟨t, ht⟩ := getFilterPath_cons key value
    unfold addWhereEntry
    rw [if_neg (by simp [hk1, hk2])]
    simp only [ht, List.headD_cons, hfind, htype]
    cases value with
    | obj fs =>
      simp only [applyFilter, jsEntries]
      cases hj : addJoins schema true r.collection fs
          { aliasMap := AliasTrie.node [], counter := counter, joins := [] } with
      | error e => simp [hj, Except.map]
      | ok stJ =>
        cases hw : addWhereClauses schema true stJ.aliasMap r.collection Logical.and
            fs stJ.counter with
        | error e => simp [hj, hw, Except.map]
        | ok p => simp [hj, hw, Except.map]
    | undef => simp [applyFilter, jsEntries, addJoins, addWhereClauses, Except.map]
    | null => simp [applyFilter, jsEntries, addJoins, addWhereClauses, Except.map]
    | bool b => simp [applyFilter, jsEntries, addJoins, addWhereClauses, Except.map]
    | num n => simp [applyFilter, jsEntries, addJoins, addWhereClauses, Except.map]
    | str s => simp [applyFilter, jsEntries, addJoins, addWhereClauses, Except.map]
    | arr xs => simp [applyFilter, jsEntries, addJoins, addWhereClauses, Except.map]

/-- C2 witness: the universal parts applied to the o2m fixture entry
`("articles", {title: {_eq: 5}})` and the end-to-end parts at `c = 0`,
`v = 5`. -/
theorem claim_C2_witness :
    (∃ m c2, addJoinsEntry schemaPages false "pages" "articles"
        (JSVal.obj (jobj [("title", JSVal.obj (jobj [("_eq", JSVal.num 5)]))]))
        { aliasMap := AliasTrie.node [], counter := 0, joins := [] }
      = Except.ok { aliasMap := m, counter := c2, joins := [] })
    ∧ addWhereEntry schemaPages false (AliasTrie.node []) "pages" Logical.and
        "articles" (JSVal.obj (jobj [("title", JSVal.obj (jobj [("_eq", JSVal.num 5)]))])) 0
      = Except.map (fun res => (res.counter,
          [WhereOp.inSub Logical.and
            ("pages" ++ "." ++ schemaPages.primary (optStr relArticles.related_collection))
            relArticles.field (relArticles.collection ++ "." ++ relArticles.field)
            relArticles.collection res.joins res.wheres]))
        (applyFilter schemaPages
          (JSVal.obj (jobj [("title", JSVal.obj (jobj [("_eq", JSVal.num 5)]))]))
          relArticles.collection true 0) :=
  ⟨claim_C2.1 schemaPages
      { aliasMap := AliasTrie.node [], counter := 0, joins := [] }
      "pages" "articles" _ relArticles (by decide) (by decide) rfl rfl,
   claim_C2.2.1 schemaPages (AliasTrie.node []) "pages" Logical.and 0 "articles"
      _ relArticles (by decide) (by decide) rfl rfl⟩

/-- C7: when the pass runs with `subQuery = true` and a filter key resolves
to a one-to-many relation on the current collection, the where pass emits NO
predicate at all for that key — the nested comparison value is silently
dropped — while the join pass does emit the LEFT JOIN for that relation
(end to end on the o2m fixture: exactly one join and zero where clauses). -/
theorem claim_C7 :
    (∀ (schema : SchemaOverview) (aliasMap : AliasTrie) (collection : String)
        (logical : Logical) (counter : Nat) (key : String) (value : JSVal)
        (r : Relation),
      key ≠ "_or" → key ≠ "_and" →
      findRelation schema.relations collection (pathRootOf key) = some r →
      getRelationType r collection (pathRootOf key) = some RelType.o2m →
      addWhereEntry schema true aliasMap collection logical key value counter
        = Except.ok (counter, []))
    ∧ (∀ (c : Nat) (v : Int),
      applyFilter schemaPages (nestedFilter "articles" "title" "_eq" (JSVal.num v))
        "pages" true c
      = Except.ok
        { counter := c + 1,
          joins := [JoinSpec.onCols (generateAlias c) "articles" "pages.id"
            (generateAlias c ++ "." ++ "page_id")],
          wheres := [] }) := by
  refine ⟨?_, fun c v => rfl⟩
  intro schema aliasMap collection logical counter key value r hk1 hk2 hfind htype
  obtain ⟨t, ht⟩ := getFilterPath_cons key value
  unfold addWhereEntry
  rw [if_neg (by simp [hk1, hk2])]
  simp [ht, hfind, htype]

/-- C7 witness: the no-predicate part applied to the o2m fixture entry, and
the end-to-end part at `c = 0`, `v = 5`. -/
theorem claim_C7_witness :
    addWhereEntry schemaPages true (AliasTrie.node []) "pages" Logical.and
      "articles"
      (JSVal.obj (jobj [("title", JSVal.obj (jobj [("_eq", JSVal.num 5)]))])) 0
      = Except.ok (0, [])
    ∧ applyFilter schemaPages (nestedFilter "articles" "title" "_eq" (JSVal.num 5))
        "pages" true 0
      = Except.ok
        { counter := 1,
          joins := [JoinSpec.onCols (generateAlias 0) "articles" "pages.id"
            (generateAlias 0 ++ "." ++ "page_id")],
          wheres := [] } :=
  ⟨claim_C7.1 schemaPages (AliasTrie.node []) "pages" Logical.and 0 "articles" _
      relArticles (by decide) (by decide) rfl rfl,
   claim_C7.2 0 5⟩

/-- C6: in `applyFilterToQuery`, every operator token other than `_null`,
`_nnull`, `_empty`, `_nempty` emits NO predicate when the operand is
`undefined` (the leaf is skipped without error); those four emit their
predicate even with the operand absent, and their comparison sense is
inverted when the operand is literally `false`. -/
theorem claim_C6 :
    (∀ (key op : String) (l : Logical),
      op ≠ "_null" → op ≠ "_nnull" → op ≠ "_empty" → op ≠ "_nempty" →
      applyFilterToQuery key op JSVal.undef l = [])
    ∧ (∀ (key : String) (l : Logical),
      applyFilterToQuery key "_null" JSVal.undef l = [WhereOp.nullCheck l false key]
      ∧ applyFilterToQuery key "_nnull" JSVal.undef l = [WhereOp.nullCheck l true key]
      ∧ applyFilterToQuery key "_empty" JSVal.undef l
          = [WhereOp.cmp l false key "=" (JSVal.str "")]
      ∧ applyFilterToQuery key "_nempty" JSVal.undef l
          = [WhereOp.cmp l true key "!=" (JSVal.str "")]
      ∧ applyFilterToQuery key "_null" (JSVal.bool false) l
          = [WhereOp.nullCheck l true key]
      ∧ applyFilterToQuery key "_nnull" (JSVal.bool false) l
          = [WhereOp.nullCheck l false key]
      ∧ applyFilterToQuery key "_empty" (JSVal.bool false) l
          = [WhereOp.cmp l true key "=" (JSVal.str "")]
      ∧ applyFilterToQuery key "_nempty" (JSVal.bool false) l
          = [WhereOp.cmp l false key "!=" (JSVal.str "")]) := by
  constructor
  · intro key op l h1 h2 h3 h4
    simp [applyFilterToQuery, jsEq, h1, h2, h3, h4]
  · intro key l
    exact ⟨rfl, rfl, rfl, rfl, rfl, rfl, rfl, rfl⟩

/-- C6 witness: an ordinary operator with an absent operand emits nothing. -/
theorem claim_C6_witness :
    applyFilterToQuery "items.x" "_eq" JSVal.undef Logical.and = [] :=
  claim_C6.1 "items.x" "_eq" Logical.and (by decide) (by decide) (by decide) (by decide)

/-- C8 (counterexample): with `page = 2`, `limit = 0` and an explicit
`offset = 5`, `applyQuery` leaves the explicit offset in place (the
`page && limit` guard is falsy for `limit = 0`), while the claimed-equivalent
query `{limit: 0, offset: 0*(2-1)}` produces NO offset at all — the builder
states differ and the explicit offset is NOT overridden. -/
theorem claim_C8_counterexample :
    applyQuery "items" {} { page := some 2, limit := some 0, offset := some 5 }
        schemaAuthors false 0
      ≠ applyQuery "items" {} { limit := some 0, offset := some 0 }
        schemaAuthors false 0 := by
  intro hcontra
  have h2 : (some (5 : Int)) = (none : Option Int) :=
    congrArg (fun r => match r with
      | Except.ok (_, qb) => QB.offset qb
      | Except.error _ => none) hcontra
  exact Option.noConfusion h2

/-- C8 (amended): for page `p ≥ 1` and limit `l ≥ 1` (both truthy), the
final builder state has `limit = l` and `offset = l * (p - 1)`, any explicit
offset being overridden; and whenever `p ≥ 2` (so that `l * (p - 1)` is
itself truthy) this is the very state produced by `{limit: l,
offset: l * (p - 1)}` — in particular `{page: 2, limit: 10}` is equivalent
to `{limit: 10, offset: 10}`.  (For `l = 0`, or for `p = 1` combined with an
explicit offset, the equivalence claimed for ALL numeric `p`/`l` fails, see
the counterexample.) -/
theorem claim_C8_amended (p l o : Int) (hp : 1 ≤ p) (hl : 1 ≤ l) :
    applyQuery "items" {} { page := some p, limit := some l, offset := some o }
        schemaAuthors false 0
      = Except.ok (0, { limit := some l, offset := some (l * (p - 1)) })
    ∧ (2 ≤ p →
      applyQuery "items" {} { page := some p, limit := some l, offset := some o }
          schemaAuthors false 0
        = applyQuery "items" {} { limit := some l, offset := some (l * (p - 1)) }
            schemaAuthors false 0) := by
  have hp0 : p ≠ 0 := by omega
  have hl0 : l ≠ 0 := by omega
  constructor
  · by_cases ho : o = 0 <;> simp [applyQuery, ho, hp0, hl0]
  · intro hp2
    have hne : l * (p - 1) ≠ 0 := by
      have hpos : 0 < l * (p - 1) := mul_pos (by omega) (by omega)
      omega
    by_cases ho : o = 0 <;> simp [applyQuery, ho, hp0, hl0, hne]

/-- C8 witness: the amended theorem at the spec's example `{page: 2,
limit: 10, offset: 5}`. -/
theorem claim_C8_witness :
    applyQuery "items" {} { page := some 2, limit := some 10, offset := some 5 }
        schemaAuthors false 0
      = Except.ok (0, { limit := some (10 : Int), offset := some (10 : Int) })
    ∧ applyQuery "items" {} { page := some 2, limit := some 10, offset := some 5 }
        schemaAuthors false 0
      = applyQuery "items" {} { limit := some 10, offset := some 10 }
        schemaAuthors false 0 := by
  have h := claim_C8_amended 2 10 5 (by norm_num) (by norm_num)
  exact ⟨by simpa using h.1, by simpa using h.2 (by norm_num)⟩

/-- C9: a one-to-many nested-write entry given as a bare primary key (string
or number) makes `processO2M` raise `Forbidden` when no record with that
primary key exists in the related collection; and the query compiler can
only ever raise `InvalidQuery` (`apply-query.ts` imports and throws no other
exception type), so it never raises `Forbidden`. -/
theorem claim_C9 :
    (∀ (db : String → List (List (String × JSVal))) (relation : Relation)
        (pkField : String) (parent payloadPk record : JSVal),
      isBarePk record = true →
      (db relation.collection).find?
        (fun row => jsLooseEq (rowGet row pkField) record) = none →
      processO2MItem db relation pkField parent payloadPk record
        = Except.error PayloadError.forbidden)
    ∧ (∀ (schema : SchemaOverview) (f : JSVal) (collection : String)
        (subQuery : Bool) (c : Nat) (e : QueryError),
      applyFilter schema f collection subQuery c = Except.error e →
      ∃ msg, e = QueryError.invalidQuery msg) := by
  constructor
  · intro db relation pkField parent payloadPk record hbare hnone
    unfold processO2MItem
    rw [if_pos hbare]
    rw [hnone]
  · intro schema f collection subQuery c e _
    cases e
    exact ⟨_, rfl⟩

/-- C9 witness: an empty related collection rejects the bare key `7` with
`Forbidden`, and a compiler error instance is an `InvalidQuery`. -/
theorem claim_C9_witness :
    isBarePk (JSVal.num 7) = true
    ∧ processO2MItem (fun _ => []) relArticles "id" (JSVal.num 1) JSVal.undef
        (JSVal.num 7) = Except.error PayloadError.forbidden
    ∧ ∃ msg, QueryError.invalidQuery (notRelationalMsg "items" "title")
        = QueryError.invalidQuery msg :=
  ⟨rfl,
   claim_C9.1 (fun _ => []) relArticles "id" (JSVal.num 1) JSVal.undef
     (JSVal.num 7) rfl rfl,
   claim_C9.2 schemaAuthors
     (leafFilter "title" "in" (JSVal.arr (jarr [JSVal.num 1, JSVal.undef, JSVal.num 2])))
     "items" false 0 (QueryError.invalidQuery (notRelationalMsg "items" "title")) rfl⟩

/-- C10: for boolean-typed columns `getDefaultValue` maps string defaults
through `castToBoolean`, which returns `false` exactly for the strings
`false` and `1` (so default `0` yields `true` while default `1` yields
`false`); non-string values are coerced with standard JS truthiness; and the
defaults `null`, the string `null` and the string `NULL` (or an absent
default) yield `null` before any coercion, for every column type. -/
theorem claim_C10 :
    (∀ s : String, castToBoolean (JSVal.str s) = false ↔ (s = "false" ∨ s = "1"))
    ∧ getDefaultValue "boolean" (JSVal.str "0") = JSVal.bool true
    ∧ getDefaultValue "boolean" (JSVal.str "1") = JSVal.bool false
    ∧ (∀ b, castToBoolean (JSVal.bool b) = jsTruthy (JSVal.bool b))
    ∧ (∀ n, castToBoolean (JSVal.num n) = jsTruthy (JSVal.num n))
    ∧ castToBoolean JSVal.null = jsTruthy JSVal.null
    ∧ castToBoolean JSVal.undef = jsTruthy JSVal.undef
    ∧ (∀ xs, castToBoolean (JSVal.arr xs) = jsTruthy (JSVal.arr xs))
    ∧ (∀ fs, castToBoolean (JSVal.obj fs) = jsTruthy (JSVal.obj fs))
    ∧ (∀ t, getDefaultValue t JSVal.null = JSVal.null
        ∧ getDefaultValue t JSVal.undef = JSVal.null
        ∧ getDefaultValue t (JSVal.str "null") = JSVal.null
        ∧ getDefaultValue t (JSVal.str "NULL") = JSVal.null) := by
  refine ⟨?_, rfl, rfl, fun b => rfl, fun n => rfl, rfl, rfl, fun xs => rfl,
    fun fs => rfl, fun t => ⟨rfl, rfl, rfl, rfl⟩⟩
  intro s
  constructor
  · intro hf
    by_contra hc
    push_neg at hc
    obtain ⟨h1, h2⟩ := hc
    simp [castToBoolean, h1, h2] at hf
  · rintro (h | h) <;> simp [castToBoolean, h]

end Directus
